import Mathlib

/-!
Verification of the passthrough PCI device model (hypervisor/dm/vpci/pci_pt.c).

The source file is shallowly embedded below: machine integers are `Nat`
with `% 2^32` applied wherever the C code can wrap, fallible C functions
return `Int` error codes (0 = success, -22 = -EINVAL), and every call the
code makes to an external collaborator (port I/O, EPT mapping, IOMMU
domain management) is recorded as an event appended to an explicit trace,
with the returned value or error supplied by an oracle in an `Env`
structure.  Spinlock acquire/release around the port protocol has no
observable effect in this single-threaded semantics and is not modelled.
-/

namespace PciPt

/-- Truncation to a 32-bit unsigned integer, as uint32_t arithmetic in C. -/
def u32 (x : Nat) : Nat := x % 4294967296

/-- Wrapping 32-bit subtraction, as the C unsigned `a - b`. -/
def u32sub (a b : Nat) : Nat := u32 (4294967296 + u32 a - u32 b)

/-- Bitwise complement on 32 bits, as the C operator `~x` on uint32_t. -/
def u32compl (x : Nat) : Nat := 0xffffffff ^^^ u32 x

/-- Modelled from the spec: the host config-access address port (pci_priv.h
is outside src/; standard PCI CONFIG_ADDRESS port). -/
def PCI_CONFIG_ADDR : Nat := 0xcf8

/-- Modelled from the spec: the host config-access data port. -/
def PCI_CONFIG_DATA : Nat := 0xcfc

/-- Modelled from the spec: the enable bit OR-ed into the config address word. -/
def PCI_CFG_ENABLE : Nat := 0x80000000

/-- Modelled from the spec: exactly 6 BAR slots per device. -/
def PCI_BAR_COUNT : Nat := 6

/-- Modelled from the spec: offset of BAR register `i`; the six consecutive
4-byte BAR registers start at config offset 0x10. -/
def PCIR_BAR (i : Nat) : Nat := 0x10 + 4 * i

/-- Modelled from the spec: config offset of the command register. -/
def PCIR_COMMAND : Nat := 0x04

/-- Modelled from the spec: memory-space-enable bit of the command register. -/
def PCIM_CMD_MEMEN : Nat := 0x0002

/-- Modelled from the spec: BAR wire format, bit 0 = memory-space indicator,
0 for memory BARs. -/
def PCIM_BAR_MEM_SPACE : Nat := 0

/-- Modelled from the spec: BAR wire format, bits 1-2 = address-width type,
0 for a 32-bit memory BAR. -/
def PCIM_BAR_MEM_32 : Nat := 0

/-- Modelled from the spec: the base field of a BAR register value is the
high bits above the low flag nibble. -/
def PCI_BAR_BASE (b : Nat) : Nat := b &&& 0xfffffff0

/-- Modelled from the spec: compose a BAR register value from base and type. -/
def PCI_BAR (base ty : Nat) : Nat := base ||| ty

/-- Modelled from the spec: EPT read permission flag. -/
def EPT_RD : Nat := 1

/-- Modelled from the spec: EPT write permission flag. -/
def EPT_WR : Nat := 2

/-- Modelled from the spec: EPT uncached memory-type flag. -/
def EPT_UNCACHED : Nat := 8

/-- Modelled from the spec: bus byte of a packed bus/device/function key. -/
def PCI_BUS (bdf : Nat) : Nat := (bdf >>> 8) &&& 0xff

/-- Modelled from the spec: low byte (device/function) of a packed key. -/
def LOBYTE (bdf : Nat) : Nat := bdf &&& 0xff

/-- One shadow BAR descriptor: type, guest base, window size. -/
structure BarDesc where
  ty : Nat
  base : Nat
  size : Nat
deriving DecidableEq

/-- Raw port I/O event performed by the Physical Config Port Driver. -/
inductive PortEvent where
  | wr (port width val : Nat)
  | rd (port width : Nat)
deriving DecidableEq

/-- Guest second-level (EPT) translation mutation event. -/
inductive EptEvent where
  | del (gpa size : Nat)
  | add (hpa gpa size prot : Nat)
deriving DecidableEq

/-- DMA Isolation Manager event. -/
inductive IommuEvent where
  | create (vmid eptp width : Nat)
  | assign (bus devfun : Nat)
  | unassign (bus devfun : Nat)
deriving DecidableEq

/-- Trace of all external calls made so far. -/
structure Trace where
  ports : List PortEvent
  ept : List EptEvent
  iommu : List IommuEvent
deriving DecidableEq

/-- The empty trace. -/
def tr0 : Trace := ⟨[], [], []⟩

/-- Oracles supplying the values and error codes returned by external
collaborators (hardware reads, ept_mr_add/ept_mr_del, IOMMU calls,
alloc_paging_struct, create_iommu_domain). -/
structure Env where
  hwRead : Nat → Nat → Nat → Nat
  eptDel : Nat → Nat → Int
  eptAdd : Nat → Nat → Nat → Nat → Int
  assignDev : Nat → Nat → Int
  unassignDev : Nat → Nat → Int
  pagingStruct : Nat
  newDomain : Nat

/-- Per-guest state reachable through vdev->vpci->vm: second-level table
root and the lazily created IOMMU domain. -/
structure VMState where
  vmid : Nat
  eptp : Nat
  iommu : Option Nat
deriving DecidableEq

/-- The passthrough device record: physical device handle (bdf and physical
BARs), the shadow BAR table, and the virtual config-space image, stored as
32-bit registers indexed by dword (offset >>> 2). -/
structure PciVdev where
  pdevBdf : Nat
  pdevBar : List BarDesc
  bar : List BarDesc
  cfg : Nat → Nat

/-- Default BAR descriptor used for out-of-range index reads. -/
def bar0d : BarDesc := ⟨0, 0, 0⟩

/-- pci_pdev_calc_address: addr = bdf << 8, then OR offset and the enable bit. -/
def pci_pdev_calc_address (bdf offset : Nat) : Nat :=
  u32 ((u32 bdf <<< 8) ||| (offset ||| PCI_CFG_ENABLE))

/-- Width actually used on the data port by the switch in
pci_pdev_read_cfg/pci_pdev_write_cfg: 1, 2, or (default) 4 bytes. -/
def portWidth (bytes : Nat) : Nat :=
  if bytes = 1 then 1 else if bytes = 2 then 2 else 4

/-- Data-port sub-address used by the switch: +(offset & 3) for byte access,
+(offset & 2) for 16-bit access, +0 for 32-bit access. -/
def portAddr (offset bytes : Nat) : Nat :=
  if bytes = 1 then PCI_CONFIG_DATA + (offset &&& 3)
  else if bytes = 2 then PCI_CONFIG_DATA + (offset &&& 2)
  else PCI_CONFIG_DATA

/-- pci_pdev_read_cfg: write the address word to the address port, then read
the data port; the value read is supplied by the hardware oracle. -/
def pci_pdev_read_cfg (env : Env) (bdf offset bytes : Nat) (tr : Trace) :
    Nat × Trace :=
  let addr := pci_pdev_calc_address bdf offset
  let val := env.hwRead addr (portAddr offset bytes) (portWidth bytes)
  (val,
   { tr with ports := tr.ports ++
      [PortEvent.wr PCI_CONFIG_ADDR 4 addr,
       PortEvent.rd (portAddr offset bytes) (portWidth bytes)] })

/-- pci_pdev_write_cfg: write the address word to the address port, then
write the value to the data port. -/
def pci_pdev_write_cfg (bdf offset bytes val : Nat) (tr : Trace) : Trace :=
  let addr := pci_pdev_calc_address bdf offset
  { tr with ports := tr.ports ++
     [PortEvent.wr PCI_CONFIG_ADDR 4 addr,
      PortEvent.wr (portAddr offset bytes) (portWidth bytes) val] }

/-- Modelled from the spec: pci_vdev_write_cfg_u32 (declared in pci_priv.h,
outside src/) stores a 32-bit register of the virtual config-space image at
the dword containing `offset`. -/
def pci_vdev_write_cfg_u32 (c : Nat → Nat) (offset val : Nat) : Nat → Nat :=
  fun i => if i = offset >>> 2 then u32 val else c i

/-- Modelled from the spec: pci_vdev_read_cfg (outside src/) answers a
BAR-range read of 1, 2 or 4 bytes from the virtual config-space image. -/
def pci_vdev_read_cfg (v : PciVdev) (offset bytes : Nat) : Nat :=
  if bytes = 1 then (v.cfg (offset >>> 2) >>> (8 * (offset % 4))) &&& 0xff
  else if bytes = 2 then (v.cfg (offset >>> 2) >>> (8 * (offset &&& 2))) &&& 0xffff
  else v.cfg (offset >>> 2)

/-- vdev_pt_init_validate: every one of the 6 BAR slots must have type
PCIM_BAR_MEM_32, otherwise -EINVAL. -/
def vdev_pt_init_validate (v : PciVdev) : Int :=
  if (List.range PCI_BAR_COUNT).all
      (fun i => (v.bar.getD i bar0d).ty == PCIM_BAR_MEM_32)
  then 0 else -22

/-- vdev_pt_init_bar_registers: initialize each BAR register of the virtual
config image from the shadow descriptor (base, type). -/
def vdev_pt_init_bar_registers (v : PciVdev) : PciVdev :=
  (List.range PCI_BAR_COUNT).foldl
    (fun w i =>
      { w with cfg := (pci_vdev_write_cfg_u32 w.cfg (PCIR_BAR i)
          (PCI_BAR (w.bar.getD i bar0d).base (w.bar.getD i bar0d).ty)) }) v

/-- vdev_pt_init: validate BAR types, get-or-create the guest IOMMU domain
(allocating the EPT root first if absent), attach the device, then
initialize the shadow BAR registers; returns the attach error code. -/
def vdev_pt_init (env : Env) (v : PciVdev) (vm : VMState) (tr : Trace) :
    Int × PciVdev × VMState × Trace :=
  let ret := vdev_pt_init_validate v
  if ret ≠ 0 then (ret, v, vm, tr)
  else
    let step :=
      if vm.iommu = none then
        let vm2 := if vm.eptp = 0 then { vm with eptp := env.pagingStruct } else vm
        ({ vm2 with iommu := some env.newDomain },
         { tr with iommu := tr.iommu ++ [IommuEvent.create vm2.vmid vm2.eptp 48] })
      else (vm, tr)
    let tr2 := { step.2 with iommu := step.2.iommu ++
        [IommuEvent.assign (PCI_BUS v.pdevBdf) (LOBYTE v.pdevBdf)] }
    (env.assignDev (PCI_BUS v.pdevBdf) (LOBYTE v.pdevBdf),
     vdev_pt_init_bar_registers v, step.1, tr2)

/-- vdev_pt_deinit: detach the device from the guest IOMMU domain. -/
def vdev_pt_deinit (env : Env) (v : PciVdev) (tr : Trace) : Int × Trace :=
  (env.unassignDev (PCI_BUS v.pdevBdf) (LOBYTE v.pdevBdf),
   { tr with iommu := tr.iommu ++
      [IommuEvent.unassign (PCI_BUS v.pdevBdf) (LOBYTE v.pdevBdf)] })

/-- bar_access: 1 iff the offset lies in the six 4-byte BAR registers. -/
def bar_access (coff : Nat) : Bool :=
  decide (PCIR_BAR 0 ≤ coff) && decide (coff < PCIR_BAR PCI_BAR_COUNT)

/-- vdev_pt_cfgread: misaligned access yields all-ones and -EINVAL; BAR
offsets are served from the virtual image; all others from hardware. -/
def vdev_pt_cfgread (env : Env) (v : PciVdev) (offset bytes : Nat)
    (tr : Trace) : Nat × Int × Trace :=
  if offset &&& (bytes - 1) ≠ 0 then (0xffffffff, -22, tr)
  else if bar_access offset then (pci_vdev_read_cfg v offset bytes, 0, tr)
  else
    let r := pci_pdev_read_cfg env v.pdevBdf offset bytes tr
    (r.1, 0, r.2)

/-- vdev_pt_remap_bar: delete the old translation when the old base is
nonzero (returning early on error), then add the new translation when the
new base is nonzero, HPA = physical BAR base, RW and uncached. -/
def vdev_pt_remap_bar (env : Env) (v : PciVdev) (vm : VMState)
    (idx new_base : Nat) (tr : Trace) : Int × Trace :=
  let d := v.bar.getD idx bar0d
  let s1 : Int × Trace :=
    if d.base ≠ 0 then
      (env.eptDel d.base d.size,
       { tr with ept := tr.ept ++ [EptEvent.del d.base d.size] })
    else (0, tr)
  if s1.1 ≠ 0 then s1
  else if new_base ≠ 0 then
    (env.eptAdd (v.pdevBar.getD idx bar0d).base new_base d.size
       (EPT_WR ||| EPT_RD ||| EPT_UNCACHED),
     { s1.2 with ept := s1.2.ept ++
        [EptEvent.add (v.pdevBar.getD idx bar0d).base new_base d.size
          (EPT_WR ||| EPT_RD ||| EPT_UNCACHED)] })
  else s1

/-- memen: read the physical command register and mask the
memory-space-enable bit. -/
def memen (env : Env) (v : PciVdev) (tr : Trace) : Nat × Trace :=
  let r := pci_pdev_read_cfg env v.pdevBdf PCIR_COMMAND 2 tr
  (r.1 &&& PCIM_CMD_MEMEN, r.2)

/-- vdev_pt_cfgwrite_bar: decode the BAR index, mask the written value with
the size-alignment mask, OR in the memory-space/32-bit flags; if the decoded
base equals the current one return unchanged; otherwise read memory-enable,
remap when enabled and not a size-probe write (remap errors only logged),
and finally store the new register value and descriptor base. -/
def vdev_pt_cfgwrite_bar (env : Env) (v : PciVdev) (vm : VMState)
    (offset bytes new_bar_uos : Nat) (tr : Trace) : PciVdev × Trace :=
  let idx := (offset - PCIR_BAR 0) >>> 2
  let d := v.bar.getD idx bar0d
  let mask := u32compl (u32sub d.size 1)
  let new_bar := ((new_bar_uos &&& mask) ||| PCIM_BAR_MEM_SPACE) ||| PCIM_BAR_MEM_32
  if PCI_BAR_BASE new_bar = d.base then (v, tr)
  else
    let me := memen env v tr
    let tr2 :=
      if me.1 ≠ 0 ∧ new_bar_uos ≠ 0xffffffff then
        (vdev_pt_remap_bar env v vm idx (PCI_BAR_BASE new_bar) me.2).2
      else me.2
    ({ v with cfg := pci_vdev_write_cfg_u32 v.cfg offset new_bar,
              bar := v.bar.set idx { d with base := PCI_BAR_BASE new_bar } },
     tr2)

/-- vdev_pt_cfgwrite: misaligned access is rejected with -EINVAL; BAR
offsets go to the BAR reprogram engine; all others straight to hardware. -/
def vdev_pt_cfgwrite (env : Env) (v : PciVdev) (vm : VMState)
    (offset bytes val : Nat) (tr : Trace) : Int × PciVdev × Trace :=
  if offset &&& (bytes - 1) ≠ 0 then (-22, v, tr)
  else if bar_access offset then
    let r := vdev_pt_cfgwrite_bar env v vm offset bytes val tr
    (0, r.1, r.2)
  else
    (0, v, pci_pdev_write_cfg v.pdevBdf offset bytes val tr)

/-- Fold a sequence of configuration writes (offset, width, value) through
vdev_pt_cfgwrite, threading device state and trace. -/
def cfgwrite_seq (env : Env) (v : PciVdev) (vm : VMState)
    (ops : List (Nat × Nat × Nat)) (tr : Trace) : PciVdev × Trace :=
  ops.foldl
    (fun st op =>
      let r := vdev_pt_cfgwrite env st.1 vm op.1 op.2.1 op.2.2 st.2
      (r.2.1, r.2.2))
    (v, tr)

/-- Oracle where every external call succeeds and the physical command
register reads back with the memory-space-enable bit set. -/
def envOk : Env :=
  ⟨fun _ _ _ => 2, fun _ _ => 0, fun _ _ _ _ => 0, fun _ _ => 0,
   fun _ _ => 0, 0x1000, 1⟩

/-- Oracle like envOk but every translation removal reports an error. -/
def envDelErr : Env := { envOk with eptDel := fun _ _ => -1 }

/-- Oracle like envOk but attaching a device to the IOMMU domain fails. -/
def envAttErr : Env := { envOk with assignDev := fun _ _ => -19 }

/-- Device with BAR0 of size 0x10000 at physical base 0xF0000000 and shadow
base 0 (the E2E scenario device); all slots are 32-bit memory BARs. -/
def vdevA : PciVdev :=
  ⟨0x10,
   [⟨0, 0xf0000000, 0x10000⟩, bar0d, bar0d, bar0d, bar0d, bar0d],
   [⟨0, 0, 0x10000⟩, bar0d, bar0d, bar0d, bar0d, bar0d],
   fun _ => 0⟩

/-- Device like vdevA whose shadow BAR0 is currently mapped at 0x100000. -/
def vdevB : PciVdev :=
  ⟨0x10,
   [⟨0, 0xf0000000, 0x10000⟩, bar0d, bar0d, bar0d, bar0d, bar0d],
   [⟨0, 0x100000, 0x10000⟩, bar0d, bar0d, bar0d, bar0d, bar0d],
   fun _ => 0⟩

/-- Guest with no IOMMU domain and no EPT root yet. -/
def vmA : VMState := ⟨1, 0, none⟩
/-- BAR index decoded from a config offset, as the engine computes it. -/
def bar_idx (offset : Nat) : Nat := (offset - PCIR_BAR 0) >>> 2

/-- Register value the engine computes for a raw written value: masked by
the size-alignment mask and OR-ed with the memory-space/32-bit flags. -/
def new_bar_val (v : PciVdev) (offset val : Nat) : Nat :=
  ((val &&& u32compl (u32sub (v.bar.getD (bar_idx offset) bar0d).size 1)) |||
    PCIM_BAR_MEM_SPACE) ||| PCIM_BAR_MEM_32

theorem bar_idx_bar (idx : Nat) : bar_idx (PCIR_BAR idx) = idx := by
  simp [bar_idx, PCIR_BAR, Nat.shiftRight_eq_div_pow]

theorem getD_set_self {α : Type} (l : List α) (i : Nat) (a d : α)
    (h : i < l.length) : (l.set i a).getD i d = a := by
  simp [List.getD_eq_getElem?_getD, List.getElem?_set_self (by simpa using h)]

theorem getD_of_length_le {α : Type} (l : List α) (i : Nat) (d : α)
    (h : l.length ≤ i) : l.getD i d = d := by
  simp [List.getD_eq_getElem?_getD, List.getElem?_eq_none h]

theorem low_bits_dvd (k n : Nat) (h : ∀ i, i < k → n.testBit i = false) :
    2 ^ k ∣ n := by
  apply Nat.dvd_of_mod_eq_zero
  apply Nat.eq_of_testBit_eq
  intro i
  rw [Nat.testBit_mod_two_pow, Nat.zero_testBit]
  rcases Nat.lt_or_ge i k with hik | hik
  · simp [h i hik]
  · simp [Nat.not_lt.mpr hik]

theorem dvd_low_bits (k n i : Nat) (h : 2 ^ k ∣ n) (hik : i < k) :
    n.testBit i = false := by
  have h0 : n % 2 ^ k = 0 := Nat.mod_eq_zero_of_dvd h
  have ht := Nat.testBit_mod_two_pow n k i
  rw [h0, Nat.zero_testBit] at ht
  simpa [hik] using ht.symm

theorem dvd_land_left (k x y : Nat) (h : 2 ^ k ∣ x) : 2 ^ k ∣ x &&& y :=
  low_bits_dvd k _ (fun i hik => by
    rw [Nat.testBit_and]
    simp [dvd_low_bits k x i h hik])

theorem dvd_land_right (k x y : Nat) (h : 2 ^ k ∣ y) : 2 ^ k ∣ x &&& y :=
  low_bits_dvd k _ (fun i hik => by
    rw [Nat.testBit_and]
    simp [dvd_low_bits k y i h hik])

theorem u32sub_pow_one (k : Nat) (hk : k ≤ 32) : u32sub (2 ^ k) 1 = 2 ^ k - 1 := by
  have ha : 1 ≤ 2 ^ k := Nat.one_le_two_pow
  have hb : 2 ^ k ≤ 4294967296 := by
    calc 2 ^ k ≤ 2 ^ 32 := Nat.pow_le_pow_right (by omega) hk
    _ = 4294967296 := by norm_num
  unfold u32sub u32
  omega

theorem mask_dvd (k : Nat) (hk : k ≤ 32) :
    2 ^ k ∣ u32compl (u32sub (2 ^ k) 1) := by
  rw [u32sub_pow_one k hk]
  apply low_bits_dvd
  intro i hik
  have hlt : 2 ^ k - 1 < 4294967296 := by
    have : 2 ^ k ≤ 4294967296 := by
      calc 2 ^ k ≤ 2 ^ 32 := Nat.pow_le_pow_right (by omega) hk
      _ = 4294967296 := by norm_num
    omega
  unfold u32compl u32
  rw [Nat.mod_eq_of_lt hlt, Nat.testBit_xor]
  have e : (0xffffffff : Nat) = 2 ^ 32 - 1 := by norm_num
  rw [e, Nat.testBit_two_pow_sub_one, Nat.testBit_two_pow_sub_one]
  simp [Nat.lt_of_lt_of_le hik hk, hik]

theorem bar_base_dvd (k val : Nat) (hk : k ≤ 32) :
    2 ^ k ∣ PCI_BAR_BASE (((val &&& u32compl (u32sub (2 ^ k) 1)) |||
      PCIM_BAR_MEM_SPACE) ||| PCIM_BAR_MEM_32) := by
  have h1 : 2 ^ k ∣ val &&& u32compl (u32sub (2 ^ k) 1) :=
    dvd_land_right k _ _ (mask_dvd k hk)
  simpa [PCI_BAR_BASE, PCIM_BAR_MEM_SPACE, PCIM_BAR_MEM_32, Nat.or_zero] using
    dvd_land_left k _ 0xfffffff0 h1

/-- C5: for every offset and width in 1, 2, 4 with the offset not a
multiple of the width, cfg_read returns 0xFFFFFFFF with the misaligned
access error (-EINVAL) and cfg_write returns the same error with no state
change, no shadow mutation and no physical port access. -/
theorem c5_misaligned (env : Env) (v : PciVdev) (vm : VMState)
    (offset bytes val : Nat) (tr : Trace)
    (hb : bytes = 1 ∨ bytes = 2 ∨ bytes = 4) (hm : offset % bytes ≠ 0) :
    vdev_pt_cfgread env v offset bytes tr = (0xffffffff, -22, tr) ∧
    vdev_pt_cfgwrite env v vm offset bytes val tr = (-22, v, tr) := by
  have halign : offset &&& (bytes - 1) ≠ 0 := by
    rcases hb with h | h | h <;> subst h
    · exact absurd (Nat.mod_one offset) hm
    · rw [Nat.and_one_is_mod]
      exact hm
    · have h4 : offset &&& 3 = offset % 4 := by
        have := Nat.and_pow_two_sub_one_eq_mod offset 2
        norm_num at this
        exact this
      rw [show (4 : Nat) - 1 = 3 from rfl, h4]
      exact hm
  constructor
  · unfold vdev_pt_cfgread
    rw [if_pos halign]
  · unfold vdev_pt_cfgwrite
    rw [if_pos halign]

theorem c5_misaligned_witness :
    vdev_pt_cfgread envOk vdevA 1 2 tr0 = (0xffffffff, -22, tr0) ∧
    vdev_pt_cfgwrite envOk vdevA vmA 1 2 7 tr0 = (-22, vdevA, tr0) :=
  c5_misaligned envOk vdevA vmA 1 2 7 tr0 (Or.inr (Or.inl rfl)) (by decide)

/-- C6: if any of the six BAR slots has a type other than MEM32, init
fails with -EINVAL before any further action: device state, guest state and
the trace (hence IOMMU domain creation, DMA attachment and shadow
config-space initialization) are all untouched. -/
theorem c6_invalid_bar_type (env : Env) (v : PciVdev) (vm : VMState)
    (tr : Trace) (i : Nat) (hi : i < PCI_BAR_COUNT)
    (ht : (v.bar.getD i bar0d).ty ≠ PCIM_BAR_MEM_32) :
    vdev_pt_init env v vm tr = (-22, v, vm, tr) := by
  have hval : vdev_pt_init_validate v = -22 := by
    unfold vdev_pt_init_validate
    rw [if_neg]
    intro hall
    have := List.all_eq_true.mp hall i (List.mem_range.mpr hi)
    exact ht (by simpa using this)
  unfold vdev_pt_init
  rw [hval]
  simp

/-- Device whose BAR1 slot is an I/O-type BAR (type 1, not MEM32). -/
def vdevBadType : PciVdev :=
  ⟨0x10,
   [⟨0, 0xf0000000, 0x10000⟩, bar0d, bar0d, bar0d, bar0d, bar0d],
   [⟨0, 0, 0x10000⟩, ⟨1, 0, 0x100⟩, bar0d, bar0d, bar0d, bar0d],
   fun _ => 0⟩

theorem c6_invalid_bar_type_witness :
    vdev_pt_init envOk vdevBadType vmA tr0 = (-22, vdevBadType, vmA, tr0) :=
  c6_invalid_bar_type envOk vdevBadType vmA tr0 1 (by decide) (by decide)

/-- C4 counterexample: with an attach oracle that fails (-19), init on a
valid device propagates the error, yet the virtual config-space image BAR0
register IS initialized (dword 4, offset 0x10, goes from 0 to the shadow
base 0x100000), contradicting the claim that the BAR registers are not
initialized on that path. -/
theorem c4_counterexample :
    (vdev_pt_init envAttErr vdevB vmA tr0).1 = -19 ∧
    vdevB.cfg 4 = 0 ∧
    (vdev_pt_init envAttErr vdevB vmA tr0).2.1.cfg 4 = 0x100000 := by
  refine ⟨by decide, by decide, by decide⟩

/-- C4 amended: if attaching the physical function to the guest DMA domain
fails during init, the attachment error is propagated to the caller, but
the virtual configuration-space BAR registers are still initialized
unconditionally on that path. -/
theorem c4_attach_error (env : Env) (v : PciVdev) (vm : VMState) (tr : Trace)
    (hv : vdev_pt_init_validate v = 0)
    (ha : env.assignDev (PCI_BUS v.pdevBdf) (LOBYTE v.pdevBdf) ≠ 0) :
    (vdev_pt_init env v vm tr).1 =
      env.assignDev (PCI_BUS v.pdevBdf) (LOBYTE v.pdevBdf) ∧
    (vdev_pt_init env v vm tr).1 ≠ 0 ∧
    (vdev_pt_init env v vm tr).2.1 = vdev_pt_init_bar_registers v := by
  unfold vdev_pt_init
  rw [hv]
  simpa using ha

theorem c4_attach_error_witness :
    (vdev_pt_init envAttErr vdevB vmA tr0).1 =
      envAttErr.assignDev (PCI_BUS vdevB.pdevBdf) (LOBYTE vdevB.pdevBdf) ∧
    (vdev_pt_init envAttErr vdevB vmA tr0).1 ≠ 0 ∧
    (vdev_pt_init envAttErr vdevB vmA tr0).2.1 = vdev_pt_init_bar_registers vdevB :=
  c4_attach_error envAttErr vdevB vmA tr0 (by decide) (by decide)

/-- C7: the end-to-end scenario: BAR0 of size 0x10000 at physical base
0xF0000000 with shadow base 0 and memory decode enabled; writing
0x80000000 (= 0x80000000 OR MEM_SPACE OR MEM32) to the BAR0 offset performs
no translation removal, exactly one translation add of
(0xF0000000, 0x80000000, 0x10000, RW and uncached), sets the descriptor
base to 0x80000000, and a subsequent read of that offset returns
0x80000000 OR MEM_SPACE OR MEM32. -/
theorem c7_e2e_scenario :
    (vdev_pt_cfgwrite envOk vdevA vmA (PCIR_BAR 0) 4 0x80000000 tr0).1 = 0 ∧
    (vdev_pt_cfgwrite envOk vdevA vmA (PCIR_BAR 0) 4 0x80000000 tr0).2.2.ept =
      [EptEvent.add 0xf0000000 0x80000000 0x10000
        (EPT_WR ||| EPT_RD ||| EPT_UNCACHED)] ∧
    ((vdev_pt_cfgwrite envOk vdevA vmA (PCIR_BAR 0) 4 0x80000000
        tr0).2.1.bar.getD 0 bar0d).base = 0x80000000 ∧
    (vdev_pt_cfgread envOk
        (vdev_pt_cfgwrite envOk vdevA vmA (PCIR_BAR 0) 4 0x80000000 tr0).2.1
        (PCIR_BAR 0) 4
        (vdev_pt_cfgwrite envOk vdevA vmA (PCIR_BAR 0) 4 0x80000000 tr0).2.2).1 =
      ((0x80000000 ||| PCIM_BAR_MEM_SPACE) ||| PCIM_BAR_MEM_32) := by
  refine ⟨by decide, by decide, by decide, by decide⟩

/-- C8: a BAR-register write whose value decodes (after masking with the
size-alignment mask and extracting the base field) to the current base of
the descriptor is a no-op: device state and trace (shadow BAR table,
virtual config image, translation tables) are unchanged and the write
reports success. -/
theorem c8_same_base_noop (env : Env) (v : PciVdev) (vm : VMState)
    (offset bytes val : Nat) (tr : Trace)
    (halign : offset &&& (bytes - 1) = 0) (hbar : bar_access offset = true)
    (hbase : PCI_BAR_BASE (new_bar_val v offset val) =
      (v.bar.getD (bar_idx offset) bar0d).base) :
    vdev_pt_cfgwrite env v vm offset bytes val tr = (0, v, tr) := by
  unfold vdev_pt_cfgwrite
  rw [if_neg (by simp [halign]), if_pos hbar]
  unfold vdev_pt_cfgwrite_bar
  rw [if_pos]
  exact hbase

theorem c8_same_base_noop_witness :
    vdev_pt_cfgwrite envOk vdevB vmA (PCIR_BAR 0) 4 0x100000 tr0 =
      (0, vdevB, tr0) :=
  c8_same_base_noop envOk vdevB vmA (PCIR_BAR 0) 4 0x100000 tr0
    (by decide) (by decide) (by decide)

theorem bar_off_idx (idx : Nat) : (PCIR_BAR idx - PCIR_BAR 0) >>> 2 = idx :=
  bar_idx_bar idx

theorem memen_ept (env : Env) (v : PciVdev) (tr : Trace) :
    (memen env v tr).2.ept = tr.ept := by
  simp [memen, pci_pdev_read_cfg]

theorem memen_ports (env : Env) (v : PciVdev) (tr : Trace) :
    (memen env v tr).2.ports = tr.ports ++
      [PortEvent.wr PCI_CONFIG_ADDR 4 (pci_pdev_calc_address v.pdevBdf PCIR_COMMAND),
       PortEvent.rd PCI_CONFIG_DATA 2] := by
  have hport : portAddr PCIR_COMMAND 2 = PCI_CONFIG_DATA := by decide
  have hw : portWidth 2 = 2 := rfl
  simp [memen, pci_pdev_read_cfg, hport, hw]

theorem remap_ports (env : Env) (v : PciVdev) (vm : VMState)
    (idx nb : Nat) (tr : Trace) :
    (vdev_pt_remap_bar env v vm idx nb tr).2.ports = tr.ports := by
  simp only [vdev_pt_remap_bar]
  split_ifs <;> rfl

/-- C2 counterexample: the BAR0 shadow base of the device is 0x100000; a probe
write of 0xFFFFFFFF to BAR0 decodes to masked all-ones 0xFFFF0000, and the
engine updates the descriptor base to that value, so the probe write does
change the descriptor base, contradicting the claim. -/
theorem c2_counterexample :
    (vdevB.bar.getD 0 bar0d).base = 0x100000 ∧
    ((vdev_pt_cfgwrite_bar envOk vdevB vmA (PCIR_BAR 0) 4 0xffffffff
        tr0).1.bar.getD 0 bar0d).base = 0xffff0000 ∧
    (0xffff0000 : Nat) ≠ 0x100000 := by
  refine ⟨by decide, by decide, by decide⟩

/-- C2 amended: a size-probe write (raw value 0xFFFFFFFF) to a BAR register
never triggers a translation add or remove, and it sets the descriptor
base to the base field of the masked all-ones value (so the base does
change whenever that value differs from the current base). -/
theorem bar_idx_def (offset : Nat) : (offset - PCIR_BAR 0) >>> 2 = bar_idx offset :=
  rfl

theorem new_bar_val_def (v : PciVdev) (offset val : Nat) :
    ((val &&& u32compl (u32sub (v.bar.getD (bar_idx offset) bar0d).size 1)) |||
      PCIM_BAR_MEM_SPACE) ||| PCIM_BAR_MEM_32 = new_bar_val v offset val :=
  rfl

theorem c2_probe (env : Env) (v : PciVdev) (vm : VMState) (offset bytes : Nat)
    (tr : Trace) (hbar : bar_access offset = true) :
    (vdev_pt_cfgwrite_bar env v vm offset bytes 0xffffffff tr).2.ept = tr.ept ∧
    ((vdev_pt_cfgwrite_bar env v vm offset bytes 0xffffffff tr).1.bar.getD
        (bar_idx offset) bar0d).base =
      PCI_BAR_BASE (new_bar_val v offset 0xffffffff) := by
  by_cases heq : PCI_BAR_BASE (new_bar_val v offset 0xffffffff) =
      (v.bar.getD (bar_idx offset) bar0d).base
  · constructor
    · simp only [vdev_pt_cfgwrite_bar]
      rw [if_pos]
      exact heq
    · rw [show (vdev_pt_cfgwrite_bar env v vm offset bytes 0xffffffff tr).1 = v by
        simp only [vdev_pt_cfgwrite_bar]
        rw [if_pos]
        exact heq]
      exact heq.symm
  · have hfalse : ¬((memen env v tr).1 ≠ 0 ∧ (0xffffffff : Nat) ≠ 0xffffffff) := by
      simp
    rcases Nat.lt_or_ge (bar_idx offset) v.bar.length with hlen | hlen
    · constructor
      · simp only [vdev_pt_cfgwrite_bar, bar_idx_def, new_bar_val_def,
          if_neg heq, if_neg hfalse]
        exact memen_ept env v tr
      · simp only [vdev_pt_cfgwrite_bar, bar_idx_def, new_bar_val_def,
          if_neg heq, if_neg hfalse]
        rw [getD_set_self _ _ _ _ hlen]
    · exfalso
      apply heq
      have hd : v.bar.getD (bar_idx offset) bar0d = bar0d :=
        getD_of_length_le v.bar (bar_idx offset) bar0d hlen
      show PCI_BAR_BASE (((0xffffffff &&& u32compl
          (u32sub (v.bar.getD (bar_idx offset) bar0d).size 1)) |||
          PCIM_BAR_MEM_SPACE) ||| PCIM_BAR_MEM_32) =
        (v.bar.getD (bar_idx offset) bar0d).base
      rw [hd]
      decide

theorem c2_probe_witness :
    (vdev_pt_cfgwrite_bar envOk vdevB vmA (PCIR_BAR 0) 4 0xffffffff tr0).2.ept =
      tr0.ept ∧
    ((vdev_pt_cfgwrite_bar envOk vdevB vmA (PCIR_BAR 0) 4 0xffffffff
        tr0).1.bar.getD (bar_idx (PCIR_BAR 0)) bar0d).base =
      PCI_BAR_BASE (new_bar_val vdevB (PCIR_BAR 0) 0xffffffff) :=
  c2_probe envOk vdevB vmA (PCIR_BAR 0) 4 tr0 (by decide)

/-- C10 counterexample: offset 0x11 lies in the BAR register range and is
aligned for width 1, but a 1-byte write there is processed by the BAR
engine (status 0, descriptor base updated) while the 4-byte write of the
same value is rejected as misaligned (-EINVAL, state unchanged), so the
1-byte write is not processed identically to a 4-byte write. -/
theorem c10_counterexample :
    bar_access 0x11 = true ∧
    (0x11 &&& (1 - 1) : Nat) = 0 ∧
    (vdev_pt_cfgwrite envOk vdevB vmA 0x11 1 0 tr0).1 = 0 ∧
    (vdev_pt_cfgwrite envOk vdevB vmA 0x11 4 0 tr0).1 = -22 ∧
    ((vdev_pt_cfgwrite envOk vdevB vmA 0x11 1 0 tr0).2.1.bar.getD 0 bar0d).base = 0 ∧
    ((vdev_pt_cfgwrite envOk vdevB vmA 0x11 4 0 tr0).2.1.bar.getD 0 bar0d).base =
      0x100000 := by
  refine ⟨by decide, by decide, by decide, by decide, by decide, by decide⟩

/-- C10 amended: for every 4-byte-aligned offset in the BAR register range,
the requested access width (1, 2 or 4 bytes) is ignored: the write is
processed identically to a 4-byte write of the same 32-bit value. -/
theorem c10_width_ignored (env : Env) (v : PciVdev) (vm : VMState)
    (offset bytes val : Nat) (tr : Trace)
    (hbar : bar_access offset = true) (h4 : offset &&& 3 = 0)
    (hb : bytes = 1 ∨ bytes = 2 ∨ bytes = 4) :
    vdev_pt_cfgwrite env v vm offset bytes val tr =
      vdev_pt_cfgwrite env v vm offset 4 val tr := by
  have hmod : offset % 4 = 0 := by
    have h := Nat.and_pow_two_sub_one_eq_mod offset 2
    norm_num at h
    omega
  have halign : offset &&& (bytes - 1) = 0 := by
    rcases hb with h | h | h <;> subst h
    · simp
    · rw [Nat.and_one_is_mod]
      omega
    · exact h4
  unfold vdev_pt_cfgwrite
  rw [if_neg (by simp [halign]), if_pos hbar,
    if_neg (show ¬(offset &&& (4 - 1) ≠ 0) by simp [h4]), if_pos hbar]
  exact rfl

/-- C1 counterexample: BAR0 currently at 0x100000, memory decode enabled,
write of 0x200000 (not all-ones) decoding to new base 0x200000; with a
translation-removal oracle that reports an error, the engine performs the
remove but never the add, while the claim demands exactly one remove
followed by exactly one add even when either call reports an error; the
descriptor base is still updated. -/
theorem c1_counterexample :
    (vdevB.bar.getD 0 bar0d).base = 0x100000 ∧
    (memen envDelErr vdevB tr0).1 ≠ 0 ∧
    PCI_BAR_BASE (new_bar_val vdevB (PCIR_BAR 0) 0x200000) = 0x200000 ∧
    (vdev_pt_cfgwrite_bar envDelErr vdevB vmA (PCIR_BAR 0) 4 0x200000 tr0).2.ept =
      [EptEvent.del 0x100000 0x10000] ∧
    (vdev_pt_cfgwrite_bar envDelErr vdevB vmA (PCIR_BAR 0) 4 0x200000 tr0).2.ept ≠
      [EptEvent.del 0x100000 0x10000,
       EptEvent.add 0xf0000000 0x200000 0x10000
         (EPT_WR ||| EPT_RD ||| EPT_UNCACHED)] ∧
    ((vdev_pt_cfgwrite_bar envDelErr vdevB vmA (PCIR_BAR 0) 4 0x200000
        tr0).1.bar.getD 0 bar0d).base = 0x200000 := by
  refine ⟨by decide, by decide, by decide, by decide, by decide, by decide⟩

/-- C1 amended: for a BAR-register write on a device whose old base is
nonzero and memory-space enable is set, where the value is not 0xFFFFFFFF
and decodes to a base different from the old one, the engine performs
exactly one remove_translation(old base, size); exactly one
add_translation(physical base, new base, size, RW and uncached) follows it
if and only if the remove reported success and the new base is nonzero
(on a remove error, or a zero new base, no add occurs); and the
descriptor base is updated to the new base afterward in every case. -/
theorem c1_remap_sequence (env : Env) (v : PciVdev) (vm : VMState)
    (idx bytes val : Nat) (tr : Trace)
    (hold : (v.bar.getD idx bar0d).base ≠ 0)
    (hme : (memen env v tr).1 ≠ 0)
    (hval : val ≠ 0xffffffff)
    (hnew : PCI_BAR_BASE (new_bar_val v (PCIR_BAR idx) val) ≠
      (v.bar.getD idx bar0d).base) :
    ((vdev_pt_cfgwrite_bar env v vm (PCIR_BAR idx) bytes val tr).1.bar.getD idx
        bar0d).base = PCI_BAR_BASE (new_bar_val v (PCIR_BAR idx) val) ∧
    (vdev_pt_cfgwrite_bar env v vm (PCIR_BAR idx) bytes val tr).2.ept =
      tr.ept ++
        (EptEvent.del (v.bar.getD idx bar0d).base (v.bar.getD idx bar0d).size ::
          (if env.eptDel (v.bar.getD idx bar0d).base (v.bar.getD idx bar0d).size = 0 ∧
              PCI_BAR_BASE (new_bar_val v (PCIR_BAR idx) val) ≠ 0 then
            [EptEvent.add (v.pdevBar.getD idx bar0d).base
              (PCI_BAR_BASE (new_bar_val v (PCIR_BAR idx) val))
              (v.bar.getD idx bar0d).size (EPT_WR ||| EPT_RD ||| EPT_UNCACHED)]
          else [])) := by
  have hlen : idx < v.bar.length := by
    by_contra hle
    apply hold
    rw [getD_of_length_le v.bar idx bar0d (Nat.le_of_not_lt hle)]
    rfl
  have hidx : bar_idx (PCIR_BAR idx) = idx := bar_idx_bar idx
  have hBv : new_bar_val v (PCIR_BAR idx) val =
      ((val &&& u32compl (u32sub (v.bar.getD idx bar0d).size 1)) |||
        PCIM_BAR_MEM_SPACE) ||| PCIM_BAR_MEM_32 := by
    unfold new_bar_val
    rw [hidx]
  have htrue : (memen env v tr).1 ≠ 0 ∧ val ≠ 0xffffffff := ⟨hme, hval⟩
  have hmain : vdev_pt_cfgwrite_bar env v vm (PCIR_BAR idx) bytes val tr =
      ({ v with
          cfg := (pci_vdev_write_cfg_u32 v.cfg (PCIR_BAR idx)
            (new_bar_val v (PCIR_BAR idx) val)),
          bar := (v.bar.set idx { v.bar.getD idx bar0d with
            base := PCI_BAR_BASE (new_bar_val v (PCIR_BAR idx) val) }) },
       (vdev_pt_remap_bar env v vm idx
          (PCI_BAR_BASE (new_bar_val v (PCIR_BAR idx) val)) (memen env v tr).2).2) := by
    simp only [vdev_pt_cfgwrite_bar, bar_idx_def, hidx]
    rw [← hBv, if_neg hnew, if_pos htrue]
  constructor
  · rw [hmain, getD_set_self _ _ _ _ hlen]
  · rw [hmain]
    simp only [vdev_pt_remap_bar]
    rw [if_pos hold]
    by_cases hdel : env.eptDel (v.bar.getD idx bar0d).base
        (v.bar.getD idx bar0d).size = 0
    · by_cases hz : PCI_BAR_BASE (new_bar_val v (PCIR_BAR idx) val) = 0
      · rw [if_neg (not_not_intro hdel), if_neg (not_not_intro hz),
          if_neg (fun h => h.2 hz)]
        simp [memen_ept]
      · rw [if_neg (not_not_intro hdel), if_pos hz, if_pos ⟨hdel, hz⟩]
        simp [memen_ept]
    · rw [if_pos hdel, if_neg (fun h => hdel h.1)]
      simp [memen_ept]

theorem c1_remap_sequence_witness :
    ((vdev_pt_cfgwrite_bar envOk vdevB vmA (PCIR_BAR 0) 4 0x200000
        tr0).1.bar.getD 0 bar0d).base =
      PCI_BAR_BASE (new_bar_val vdevB (PCIR_BAR 0) 0x200000) ∧
    (vdev_pt_cfgwrite_bar envOk vdevB vmA (PCIR_BAR 0) 4 0x200000 tr0).2.ept =
      tr0.ept ++
        (EptEvent.del (vdevB.bar.getD 0 bar0d).base (vdevB.bar.getD 0 bar0d).size ::
          (if envOk.eptDel (vdevB.bar.getD 0 bar0d).base (vdevB.bar.getD 0 bar0d).size = 0 ∧
              PCI_BAR_BASE (new_bar_val vdevB (PCIR_BAR 0) 0x200000) ≠ 0 then
            [EptEvent.add (vdevB.pdevBar.getD 0 bar0d).base
              (PCI_BAR_BASE (new_bar_val vdevB (PCIR_BAR 0) 0x200000))
              (vdevB.bar.getD 0 bar0d).size (EPT_WR ||| EPT_RD ||| EPT_UNCACHED)]
          else [])) :=
  c1_remap_sequence envOk vdevB vmA 0 4 0x200000 tr0
    (by decide) (by decide) (by decide) (by decide)

theorem c10_width_ignored_witness :
    vdev_pt_cfgwrite envOk vdevB vmA (PCIR_BAR 0) 2 0x200000 tr0 =
      vdev_pt_cfgwrite envOk vdevB vmA (PCIR_BAR 0) 4 0x200000 tr0 :=
  c10_width_ignored envOk vdevB vmA (PCIR_BAR 0) 2 0x200000 tr0
    (by decide) (by decide) (Or.inr (Or.inl rfl))

theorem cfgwrite_bar_ports (env : Env) (v : PciVdev) (vm : VMState)
    (offset bytes val : Nat) (tr : Trace) :
    (vdev_pt_cfgwrite_bar env v vm offset bytes val tr).2.ports = tr.ports ∨
    (vdev_pt_cfgwrite_bar env v vm offset bytes val tr).2.ports =
      tr.ports ++
        [PortEvent.wr PCI_CONFIG_ADDR 4
            (pci_pdev_calc_address v.pdevBdf PCIR_COMMAND),
         PortEvent.rd PCI_CONFIG_DATA 2] := by
  simp only [vdev_pt_cfgwrite_bar]
  split_ifs with h1 h2
  · exact Or.inl rfl
  · right
    rw [remap_ports]
    exact memen_ports env v tr
  · right
    exact memen_ports env v tr

/-- C3 counterexample: offset 0x10 is inside the BAR register range and the
access is aligned, yet the BAR write performs physical config port I/O (the
memory-enable read of the command register), so cfg_write for a BAR offset
does invoke the Physical Config Port Driver, contradicting the claim. -/
theorem c3_counterexample :
    bar_access 0x10 = true ∧
    (vdev_pt_cfgwrite envOk vdevB vmA 0x10 4 0x300000 tr0).2.2.ports =
      [PortEvent.wr PCI_CONFIG_ADDR 4 0x80001004,
       PortEvent.rd PCI_CONFIG_DATA 2] ∧
    (vdev_pt_cfgwrite envOk vdevB vmA 0x10 4 0x300000 tr0).2.2.ports ≠ [] := by
  refine ⟨by decide, by decide, by decide⟩

/-- C3 amended: for every aligned access, if the offset is inside the six
BAR register range then cfg_read performs no physical port access at all
and cfg_write performs at most the 2-byte memory-enable read of the command
register (never any other port access); if the offset is outside that range
then cfg_write leaves the shadow state of the device untouched and the cfg_read
result does not depend on the shadow BAR table or config image. -/
theorem c3_routing_split (env : Env) (v : PciVdev) (vm : VMState)
    (offset bytes val : Nat) (tr : Trace)
    (halign : offset &&& (bytes - 1) = 0) :
    (bar_access offset = true →
      (vdev_pt_cfgread env v offset bytes tr).2.2 = tr ∧
      ((vdev_pt_cfgwrite env v vm offset bytes val tr).2.2.ports = tr.ports ∨
        (vdev_pt_cfgwrite env v vm offset bytes val tr).2.2.ports =
          tr.ports ++
            [PortEvent.wr PCI_CONFIG_ADDR 4
                (pci_pdev_calc_address v.pdevBdf PCIR_COMMAND),
             PortEvent.rd PCI_CONFIG_DATA 2])) ∧
    (bar_access offset = false →
      (vdev_pt_cfgwrite env v vm offset bytes val tr).2.1 = v ∧
      ∀ bar2 cfg2,
        vdev_pt_cfgread env { v with bar := bar2, cfg := cfg2 } offset bytes tr =
          vdev_pt_cfgread env v offset bytes tr) := by
  have hnal : ¬(offset &&& (bytes - 1) ≠ 0) := not_not_intro halign
  constructor
  · intro hbar
    constructor
    · unfold vdev_pt_cfgread
      rw [if_neg hnal, if_pos hbar]
    · unfold vdev_pt_cfgwrite
      rw [if_neg hnal, if_pos hbar]
      exact cfgwrite_bar_ports env v vm offset bytes val tr
  · intro hbar
    constructor
    · unfold vdev_pt_cfgwrite
      rw [if_neg hnal, if_neg (by simp [hbar])]
    · intro bar2 cfg2
      unfold vdev_pt_cfgread
      simp only [if_neg hnal,
        if_neg (show ¬(bar_access offset = true) by simp [hbar])]

theorem c3_routing_split_witness :
    (vdev_pt_cfgread envOk vdevB 0x10 4 tr0).2.2 = tr0 ∧
    ((vdev_pt_cfgwrite envOk vdevB vmA 0x10 4 0x300000 tr0).2.2.ports =
        tr0.ports ∨
      (vdev_pt_cfgwrite envOk vdevB vmA 0x10 4 0x300000 tr0).2.2.ports =
        tr0.ports ++
          [PortEvent.wr PCI_CONFIG_ADDR 4
              (pci_pdev_calc_address vdevB.pdevBdf PCIR_COMMAND),
           PortEvent.rd PCI_CONFIG_DATA 2]) ∧
    (vdev_pt_cfgwrite envOk vdevB vmA 0x40 4 1 tr0).2.1 = vdevB ∧
    vdev_pt_cfgread envOk { vdevB with bar := [], cfg := (fun _ => 7) }
        0x40 4 tr0 =
      vdev_pt_cfgread envOk vdevB 0x40 4 tr0 := by
  refine ⟨?_, ?_, ?_, ?_⟩
  · exact ((c3_routing_split envOk vdevB vmA 0x10 4 0x300000 tr0
      (by decide)).1 (by decide)).1
  · exact ((c3_routing_split envOk vdevB vmA 0x10 4 0x300000 tr0
      (by decide)).1 (by decide)).2
  · exact ((c3_routing_split envOk vdevB vmA 0x40 4 1 tr0
      (by decide)).2 (by decide)).1
  · exact ((c3_routing_split envOk vdevB vmA 0x40 4 1 tr0
      (by decide)).2 (by decide)).2 [] (fun _ => 7)

/-- All shadow BAR sizes are powers of two with exponent at most 32
(sizes are fixed 32-bit powers of two per the data model). -/
def SizesPow2 (bars : List BarDesc) : Prop :=
  ∀ d ∈ bars, ∃ k, k ≤ 32 ∧ d.size = 2 ^ k

/-- Every shadow BAR base is a multiple of its size (base 0 included). -/
def BasesAligned (bars : List BarDesc) : Prop :=
  ∀ d ∈ bars, d.size ∣ d.base

theorem getD_mem {α : Type} (l : List α) (i : Nat) (d : α) (h : i < l.length) :
    l.getD i d ∈ l := by
  rw [List.getD_eq_getElem?_getD, List.getElem?_eq_getElem h]
  exact List.getElem_mem h

theorem cfgwrite_bar_shape (env : Env) (v : PciVdev) (vm : VMState)
    (offset bytes val : Nat) (tr : Trace) :
    (vdev_pt_cfgwrite_bar env v vm offset bytes val tr).1.bar = v.bar ∨
    (vdev_pt_cfgwrite_bar env v vm offset bytes val tr).1.bar =
      v.bar.set (bar_idx offset) { v.bar.getD (bar_idx offset) bar0d with
        base := PCI_BAR_BASE (new_bar_val v offset val) } := by
  simp only [vdev_pt_cfgwrite_bar, bar_idx_def, new_bar_val_def]
  split_ifs <;> first
    | exact Or.inl rfl
    | exact Or.inr rfl

theorem cfgwrite_shape (env : Env) (v : PciVdev) (vm : VMState)
    (offset bytes val : Nat) (tr : Trace) :
    (vdev_pt_cfgwrite env v vm offset bytes val tr).2.1.bar = v.bar ∨
    (vdev_pt_cfgwrite env v vm offset bytes val tr).2.1.bar =
      v.bar.set (bar_idx offset) { v.bar.getD (bar_idx offset) bar0d with
        base := PCI_BAR_BASE (new_bar_val v offset val) } := by
  unfold vdev_pt_cfgwrite
  split_ifs with h1 h2
  · exact Or.inl rfl
  · exact cfgwrite_bar_shape env v vm offset bytes val tr
  · exact Or.inl rfl

theorem inv_set (bars : List BarDesc) (idx : Nat) (B : Nat)
    (hs : SizesPow2 bars) (ha : BasesAligned bars)
    (hB : (bars.getD idx bar0d).size ∣ B) :
    SizesPow2 (bars.set idx { bars.getD idx bar0d with base := B }) ∧
    BasesAligned (bars.set idx { bars.getD idx bar0d with base := B }) := by
  rcases Nat.lt_or_ge idx bars.length with hlen | hlen
  · constructor
    · intro d hd
      rcases List.mem_or_eq_of_mem_set hd with hmem | rfl
      · exact hs d hmem
      · rcases hs _ (getD_mem bars idx bar0d hlen) with ⟨k, hk, hsz⟩
        exact ⟨k, hk, hsz⟩
    · intro d hd
      rcases List.mem_or_eq_of_mem_set hd with hmem | rfl
      · exact ha d hmem
      · exact hB
  · rw [List.set_eq_of_length_le hlen]
    exact ⟨hs, ha⟩

theorem cfgwrite_inv (env : Env) (v : PciVdev) (vm : VMState)
    (offset bytes val : Nat) (tr : Trace)
    (hs : SizesPow2 v.bar) (ha : BasesAligned v.bar) :
    SizesPow2 (vdev_pt_cfgwrite env v vm offset bytes val tr).2.1.bar ∧
    BasesAligned (vdev_pt_cfgwrite env v vm offset bytes val tr).2.1.bar := by
  rcases cfgwrite_shape env v vm offset bytes val tr with hb | hb
  · rw [hb]
    exact ⟨hs, ha⟩
  · rw [hb]
    apply inv_set _ _ _ hs ha
    rcases Nat.lt_or_ge (bar_idx offset) v.bar.length with hlen | hlen
    · rcases hs _ (getD_mem v.bar (bar_idx offset) bar0d hlen) with ⟨k, hk, hsize⟩
      rw [hsize]
      show 2 ^ k ∣ PCI_BAR_BASE (((val &&& u32compl
        (u32sub (v.bar.getD (bar_idx offset) bar0d).size 1)) |||
        PCIM_BAR_MEM_SPACE) ||| PCIM_BAR_MEM_32)
      rw [hsize]
      exact bar_base_dvd k val hk
    · have hd := getD_of_length_le v.bar (bar_idx offset) bar0d hlen
      rw [hd]
      show bar0d.size ∣ PCI_BAR_BASE (((val &&& u32compl
        (u32sub (v.bar.getD (bar_idx offset) bar0d).size 1)) |||
        PCIM_BAR_MEM_SPACE) ||| PCIM_BAR_MEM_32)
      rw [hd]
      have hz : u32compl (u32sub bar0d.size 1) = 0 := by decide
      rw [hz, Nat.and_zero]
      simp [PCI_BAR_BASE, PCIM_BAR_MEM_SPACE, PCIM_BAR_MEM_32, bar0d]

/-- C9: over any sequence of configuration writes, every shadow BAR
descriptor base stays a multiple of its (power-of-two) size, 0 included. -/
theorem c9_base_alignment (env : Env) (vm : VMState)
    (ops : List (Nat × Nat × Nat)) (v : PciVdev) (tr : Trace)
    (hs : SizesPow2 v.bar) (ha : BasesAligned v.bar) :
    BasesAligned (cfgwrite_seq env v vm ops tr).1.bar := by
  induction ops generalizing v tr with
  | nil => exact ha
  | cons op rest ih =>
      have hstep := cfgwrite_inv env v vm op.1 op.2.1 op.2.2 tr hs ha
      have hseq : cfgwrite_seq env v vm (op :: rest) tr =
          cfgwrite_seq env (vdev_pt_cfgwrite env v vm op.1 op.2.1 op.2.2 tr).2.1
            vm rest (vdev_pt_cfgwrite env v vm op.1 op.2.1 op.2.2 tr).2.2 := rfl
      rw [hseq]
      exact ih _ _ hstep.1 hstep.2

/-- Device with six MEM32 BARs of power-of-two sizes, BAR0 mapped at an
aligned base. -/
def vdevC : PciVdev :=
  ⟨0,
   [⟨0, 0xf0000000, 0x10000⟩, bar0d, bar0d, bar0d, bar0d, bar0d],
   [⟨0, 0x100000, 0x10000⟩, ⟨0, 0, 0x1000⟩, ⟨0, 0, 0x2000⟩, ⟨0, 0, 0x4000⟩,
    ⟨0, 0, 0x8000⟩, ⟨0, 0, 0x800⟩],
   fun _ => 0⟩

theorem c9_base_alignment_witness :
    BasesAligned (cfgwrite_seq envOk vdevC vmA
      [(0x10, 4, 0x87654321), (0x14, 4, 0xffffffff), (0x18, 2, 0x5000)]
      tr0).1.bar := by
  apply c9_base_alignment
  · intro d hd
    simp [vdevC] at hd
    rcases hd with rfl | rfl | rfl | rfl | rfl | rfl
    · exact ⟨16, by omega, rfl⟩
    · exact ⟨12, by omega, rfl⟩
    · exact ⟨13, by omega, rfl⟩
    · exact ⟨14, by omega, rfl⟩
    · exact ⟨15, by omega, rfl⟩
    · exact ⟨11, by omega, rfl⟩
  · intro d hd
    simp [vdevC] at hd
    rcases hd with rfl | rfl | rfl | rfl | rfl | rfl
    · exact ⟨16, rfl⟩
    · exact ⟨0, rfl⟩
    · exact ⟨0, rfl⟩
    · exact ⟨0, rfl⟩
    · exact ⟨0, rfl⟩
    · exact ⟨0, rfl⟩

end PciPt
